import Mathlib

set_option autoImplicit false

/-!
Shallow embedding of the `arg-parser` crate (`src/lib.rs`): the parameter
registry, the parsing state machine, and the accessor layer.

Shared `Rc<RefCell<_>>` cells are modelled as indices into two explicit
stores (`boolCells` for booleans, `strCells` for strings) carried in the
parser state; two registry entries that hold the same index model two
aliases holding clones of the same `Rc`.  Rust byte slicing on the ASCII
prefixes `-`, `--` and at the first `=` is modelled by the corresponding
char-list operations.
-/

namespace ArgCrate

/-- Type `Param` from the source: short (`-s`) and long (`--long`) keys. -/
inductive Param where
  | Short : Char → Param
  | Long : String → Param
deriving DecidableEq, Repr

/-- Source type `Rhs<T>`: the cell reference (`value`, an index into a store) together
with the per-entry occurrence counter. -/
structure Rhs where
  value : Nat
  occurrences : Nat
deriving DecidableEq, Repr

/-- Source type `Value`: Flag holds a bool cell; Opt and Setting hold a string cell in
their `Rhs` plus a shared `found` bool cell. -/
inductive Value where
  | Flag : Rhs → Value
  | Opt : Rhs → Nat → Value
  | Setting : Rhs → Nat → Value
deriving DecidableEq, Repr

/-- The registry `HashMap<Param, Value>` as an association list; `mapInsert` keeps
map overwrite semantics (last registration for a colliding key wins). -/
def mapInsert (ps : List (Param × Value)) (k : Param) (v : Value) :
    List (Param × Value) :=
  (k, v) :: ps.filter (fun kv => kv.1 ≠ k)

/-- Lookup `HashMap::get`: the binding of `k`, if any (the first matching key;
`mapInsert` keeps keys unique). -/
def lookupParam : List (Param × Value) → Param → Option Value
  | [], _ => none
  | kv :: rest, k => if kv.1 = k then some kv.2 else lookupParam rest k

/-- State `ArgParser`: registry, invalid list, garbage cells and positional args,
plus the two explicit stores backing the shared `Rc<RefCell<_>>` cells. -/
structure ArgParser where
  params : List (Param × Value)
  invalid : List Param
  garbage : Bool × String
  args : List String
  boolCells : List Bool
  strCells : List String
deriving DecidableEq, Repr

namespace ArgParser

/-- Constructor `ArgParser::new` (capacity is only a HashMap hint and has no semantic
content). -/
def new : ArgParser :=
  { params := [], invalid := [], garbage := (false, ""), args := [],
    boolCells := [], strCells := [] }

/-- Read a bool cell (`*cell.borrow()`). -/
def getBoolCell (p : ArgParser) (i : Nat) : Bool := p.boolCells.getD i false

/-- Read a string cell (`*cell.borrow()`). -/
def getStrCell (p : ArgParser) (i : Nat) : String := p.strCells.getD i ""

/-- Write a bool cell (`*cell.borrow_mut() = b`). -/
def setBoolCell (p : ArgParser) (i : Nat) (b : Bool) : ArgParser :=
  { p with boolCells := p.boolCells.set i b }

/-- Write a string cell (`*cell.borrow_mut() = s`, also
`clear` + `push_str`). -/
def setStrCell (p : ArgParser) (i : Nat) (s : String) : ArgParser :=
  { p with strCells := p.strCells.set i s }

/-- In-place update of a registry binding obtained through `get_mut`. -/
def setParamValue (p : ArgParser) (k : Param) (v : Value) : ArgParser :=
  { p with params := p.params.map (fun kv => if kv.1 = k then (k, v) else kv) }

/-- Builder `add_flag`: one fresh shared bool cell; each alias of length one
registers a Short key, each longer nonempty alias a Long key, all pointing
at the same cell with their own zero counter. -/
def add_flag (p : ArgParser) (flags : List String) : ArgParser :=
  let id := p.boolCells.length
  let p0 := { p with boolCells := p.boolCells ++ [false] }
  flags.foldl
    (fun acc flag =>
      match flag.toList with
      | [c] =>
        { acc with
          params := mapInsert acc.params (Param.Short c) (Value.Flag ⟨id, 0⟩) }
      | [] => acc
      | _ =>
        { acc with
          params := mapInsert acc.params (Param.Long flag) (Value.Flag ⟨id, 0⟩) })
    p0

/-- Common body of `add_opt` / `add_opt_default`: a fresh shared string
cell holding `dflt` and a fresh shared `found` cell holding `false`;
the first char of `short` (if any) registers a Short key, a nonempty
`long` registers a Long key, sharing both cells. -/
def addOptWith (p : ArgParser) (short long dflt : String) : ArgParser :=
  let vid := p.strCells.length
  let fid := p.boolCells.length
  let p0 := { p with strCells := p.strCells ++ [dflt],
                     boolCells := p.boolCells ++ [false] }
  let p1 :=
    match short.toList with
    | c :: _ =>
      { p0 with
        params := mapInsert p0.params (Param.Short c) (Value.Opt ⟨vid, 0⟩ fid) }
    | [] => p0
  if long = "" then p1
  else
    { p1 with
      params := mapInsert p1.params (Param.Long long) (Value.Opt ⟨vid, 0⟩ fid) }

/-- Builder `add_opt`: initial value is the empty string, `found` starts `false`. -/
def add_opt (p : ArgParser) (short long : String) : ArgParser :=
  addOptWith p short long ""

/-- Builder `add_opt_default`: initial value is `default`, `found` starts `false`. -/
def add_opt_default (p : ArgParser) (short long dflt : String) : ArgParser :=
  addOptWith p short long dflt

/-- Common body of `add_setting` / `add_setting_default`: Long key only. -/
def addSettingWith (p : ArgParser) (setting dflt : String) : ArgParser :=
  let vid := p.strCells.length
  let fid := p.boolCells.length
  let p0 := { p with strCells := p.strCells ++ [dflt],
                     boolCells := p.boolCells ++ [false] }
  if setting = "" then p0
  else
    { p0 with
      params :=
        mapInsert p0.params (Param.Long setting) (Value.Setting ⟨vid, 0⟩ fid) }

/-- Builder `add_setting`: initial value empty, `found` starts `false`. -/
def add_setting (p : ArgParser) (setting : String) : ArgParser :=
  addSettingWith p setting ""

/-- Builder `add_setting_default`: initial value `default`, `found` starts `false`. -/
def add_setting_default (p : ArgParser) (setting dflt : String) : ArgParser :=
  addSettingWith p setting dflt

end ArgParser

/-- Test `arg.starts_with("--")`. -/
def startsWith2Dash (s : String) : Bool :=
  match s.toList with
  | a :: b :: _ => a = '-' && b = '-'
  | _ => false

/-- Test `arg.starts_with("-")`. -/
def startsWith1Dash (s : String) : Bool :=
  match s.toList with
  | a :: _ => a = '-'
  | _ => false

/-- Test `arg.contains("=")`. -/
def containsEq (s : String) : Bool := s.toList.contains '='

/-- Search `arg.find('=')`: index of the first `=`, if any. -/
def findEqAux : List Char → Option Nat
  | [] => none
  | c :: rest => if c = '=' then some 0 else (findEqAux rest).map (· + 1)

/-- Search `arg.find('=')` on a string. -/
def findEq (s : String) : Option Nat := findEqAux s.toList

/-- Slice `&s[n..]` (char-based; the sliced prefixes are single-byte ASCII). -/
def strDrop (s : String) (n : Nat) : String := String.mk (s.toList.drop n)

/-- Slice `s.split_at(i).0`. -/
def strTake (s : String) (n : Nat) : String := String.mk (s.toList.take n)

namespace ArgParser

/-- The `while let Some(ch) = chars.next()` sub-loop over a short cluster.
Returns the new state and whether the cluster consumed the next whole
token from the shared argument iterator (`args.next()` in the Opt branch
with an empty rest).  `rest` is the list of tokens still in the iterator. -/
def parseCluster (p : ArgParser) (chs : List Char) (rest : List String) :
    ArgParser × Bool :=
  match chs with
  | [] => (p, false)
  | ch :: chs' =>
    match lookupParam p.params (Param.Short ch) with
    | some (Value.Flag r) =>
      parseCluster
        ((p.setBoolCell r.value true).setParamValue (Param.Short ch)
          (Value.Flag ⟨r.value, r.occurrences + 1⟩)) chs' rest
    | some (Value.Opt r fid) =>
      if chs' ≠ [] then
        ((p.setStrCell r.value (String.mk chs')).setBoolCell fid true, false)
      else
        match rest with
        | a :: _ => ((p.setBoolCell fid true).setStrCell r.value a, true)
        | [] => (p.setStrCell r.value "", false)
    | some (Value.Setting _ _) =>
      parseCluster { p with invalid := p.invalid ++ [Param.Short ch] } chs' rest
    | none =>
      parseCluster { p with invalid := p.invalid ++ [Param.Short ch] } chs' rest

/-- The `--name=value` branch body (long Opt with `=`): occurrence reset
policy, overwrite, `found = true`; unknown or non-Opt name is invalid. -/
def longEqStep (p : ArgParser) (lhs rhs : String) : ArgParser :=
  match lookupParam p.params (Param.Long lhs) with
  | some (Value.Opt r fid) =>
    let occ := if p.getStrCell r.value = "" then 1 else r.occurrences + 1
    (((p.setParamValue (Param.Long lhs) (Value.Opt ⟨r.value, occ⟩ fid)
      ).setStrCell r.value rhs).setBoolCell fid true)
  | _ => { p with invalid := p.invalid ++ [Param.Long lhs] }

/-- The `name=value` branch body (Setting with `=`): same policy as
`longEqStep` but matching Settings. -/
def settingEqStep (p : ArgParser) (lhs rhs : String) : ArgParser :=
  match lookupParam p.params (Param.Long lhs) with
  | some (Value.Setting r fid) =>
    let occ := if p.getStrCell r.value = "" then 1 else r.occurrences + 1
    (((p.setParamValue (Param.Long lhs) (Value.Setting ⟨r.value, occ⟩ fid)
      ).setStrCell r.value rhs).setBoolCell fid true)
  | _ => { p with invalid := p.invalid ++ [Param.Long lhs] }

/-- The `--name` branch body (no `=`): Flag sets true and increments; Opt
increments and sets found without touching the value; otherwise invalid. -/
def longBareStep (p : ArgParser) (name : String) : ArgParser :=
  match lookupParam p.params (Param.Long name) with
  | some (Value.Flag r) =>
    (p.setBoolCell r.value true).setParamValue (Param.Long name)
      (Value.Flag ⟨r.value, r.occurrences + 1⟩)
  | some (Value.Opt r fid) =>
    (p.setParamValue (Param.Long name)
      (Value.Opt ⟨r.value, r.occurrences + 1⟩ fid)).setBoolCell fid true
  | _ => { p with invalid := p.invalid ++ [Param.Long name] }

end ArgParser

/-- What one iteration of the main loop does to the token stream beyond
the current token: `keep` leaves it as is, `dropOne` consumed the next
token (short Opt with empty rest), `stop` ended the pass (`--`). -/
inductive StepRes where
  | keep
  | dropOne
  | stop
deriving DecidableEq, Repr

namespace ArgParser

/-- One iteration of the main `while let Some(arg) = args.next()` loop:
the per-token classification of `parse`, in the source's priority order,
returning the updated state and what happened to the remaining tokens. -/
def parseStep (p : ArgParser) (arg : String) (rest : List String) :
    ArgParser × StepRes :=
  if startsWith2Dash arg then
    let arg2 := strDrop arg 2
    if arg2 = "" then ({ p with args := p.args ++ rest }, StepRes.stop)
    else
      match findEq arg2 with
      | some i =>
        (p.longEqStep (strTake arg2 i) (strDrop arg2 (i + 1)), StepRes.keep)
      | none => (p.longBareStep arg2, StepRes.keep)
  else if startsWith1Dash arg ∧ arg ≠ "-" then
    let pr := p.parseCluster (arg.toList.drop 1) rest
    (pr.1, if pr.2 then StepRes.dropOne else StepRes.keep)
  else if containsEq arg then
    if arg = "" then ({ p with args := p.args ++ rest }, StepRes.stop)
    else
      match findEq arg with
      | some i =>
        (p.settingEqStep (strTake arg i) (strDrop arg (i + 1)), StepRes.keep)
      | none => (p, StepRes.keep)
  else ({ p with args := p.args ++ [arg] }, StepRes.keep)

/-- The main loop of `parse` over the tokens after the program name. -/
def parseLoop (p : ArgParser) : List String → ArgParser
  | [] => p
  | arg :: rest =>
    match parseStep p arg rest with
    | (p', StepRes.stop) => p'
    | (p', StepRes.dropOne) =>
      match rest with
      | [] => p'
      | _ :: rest' => parseLoop p' rest'
    | (p', StepRes.keep) => parseLoop p' rest

/-- Entry point `parse`: skip the program name, then run the loop. -/
def parse (p : ArgParser) (args : List String) : ArgParser :=
  parseLoop p (args.drop 1)

/-- Accessor `count`: the per-key occurrence counter; 0 for Settings and unknown
keys. -/
def count (p : ArgParser) (name : Param) : Nat :=
  match lookupParam p.params name with
  | some (Value.Flag r) => r.occurrences
  | some (Value.Opt r _) => r.occurrences
  | _ => 0

/-- Accessor `found`: Flag's bool cell, or the `found` cell for Opt/Setting; false
for unknown keys. -/
def found (p : ArgParser) (name : Param) : Bool :=
  match lookupParam p.params name with
  | some (Value.Flag r) => p.getBoolCell r.value
  | some (Value.Opt _ fid) => p.getBoolCell fid
  | some (Value.Setting _ fid) => p.getBoolCell fid
  | none => false

/-- Accessor `get_opt`: the value when the shared `found` cell is true, else None. -/
def get_opt (p : ArgParser) (name : Param) : Option String :=
  match lookupParam p.params name with
  | some (Value.Opt r fid) =>
    if p.getBoolCell fid then some (p.getStrCell r.value) else none
  | _ => none

/-- Accessor `get_setting`: the value when the shared `found` cell is true, else
None. -/
def get_setting (p : ArgParser) (name : Param) : Option String :=
  match lookupParam p.params name with
  | some (Value.Setting r fid) =>
    if p.getBoolCell fid then some (p.getStrCell r.value) else none
  | _ => none

end ArgParser

/-- One invalid entry as the `found_invalid` loop renders it (with its
leading space), plus the `" and"` separator when more follow and the
plural form is active. -/
def renderEntry : Param → String
  | Param.Short c => " '-" ++ String.singleton c ++ "'"
  | Param.Long s => " '--" ++ s ++ "'"

/-- The `while let Some(param) = iter.next()` rendering loop of
`found_invalid`. -/
def renderLoop (useAnd : Bool) : List Param → String
  | [] => ""
  | q :: rest =>
    renderEntry q ++ (if useAnd ∧ rest ≠ [] then " and" else "")
      ++ renderLoop useAnd rest

/-- Accessor `found_invalid`: Ok when no invalid entries; otherwise the rendered
message. -/
def ArgParser.found_invalid (p : ArgParser) : Except String Unit :=
  if p.invalid = [] then Except.ok ()
  else
    let plural := p.invalid.length ≠ 1
    Except.error
      ((if p.invalid.length = 1 then "Invalid parameter"
        else "Invalid parameters")
       ++ renderLoop plural p.invalid ++ "\n")

/-! Claim-side rendering of the diagnostic (C7), written from the claim's
words, to be compared with `found_invalid` above. -/

/-- From the claim's words: a Short key renders as `-<char>`, a Long key
as `--<string>`. -/
def claimRender : Param → String
  | Param.Short c => "-" ++ String.singleton c
  | Param.Long s => "--" ++ s

/-- From the claim's words: each rendered entry appears wrapped in single
quotes. -/
def claimQuoted (q : Param) : String := "'" ++ claimRender q ++ "'"

/-- From the claim's words: `" and "` between every adjacent pair of
entries. -/
def claimJoinAnd : List String → String
  | [] => ""
  | [s] => s
  | s :: rest => s ++ " and " ++ claimJoinAnd rest

open ArgParser

/-! ### Basic lemmas about the registry map and the token classifiers -/

theorem data_mk (l : List Char) : (String.mk l).data = l := rfl

theorem mk_data (s : String) : String.mk s.data = s := rfl

theorem lookupParam_mapInsert_self (ps : List (Param × Value)) (k : Param)
    (v : Value) : lookupParam (mapInsert ps k v) k = some v := by
  simp [lookupParam, mapInsert]

theorem lookupParam_filter_ne (ps : List (Param × Value)) (k k' : Param)
    (h : k' ≠ k) :
    lookupParam (ps.filter (fun kv => kv.1 ≠ k)) k' = lookupParam ps k' := by
  induction ps with
  | nil => rfl
  | cons a t ih =>
    by_cases hak : a.1 = k
    · have hak' : a.1 ≠ k' := fun hh => h (hh.symm.trans hak)
      rw [List.filter_cons, if_neg (by simp [hak]), ih]
      simp only [lookupParam]
      rw [if_neg hak']
    · rw [List.filter_cons, if_pos (by simp [hak])]
      simp only [lookupParam]
      rw [ih]

theorem lookupParam_mapInsert_ne (ps : List (Param × Value)) (k k' : Param)
    (v : Value) (h : k' ≠ k) :
    lookupParam (mapInsert ps k v) k' = lookupParam ps k' := by
  have hk : k ≠ k' := fun hh => h hh.symm
  simp only [mapInsert, lookupParam, hk, if_false]
  exact lookupParam_filter_ne ps k k' h

theorem lookupParam_setParamValue_ne (p : ArgParser) (k k' : Param) (v : Value)
    (h : k' ≠ k) :
    lookupParam (p.setParamValue k v).params k' = lookupParam p.params k' := by
  simp only [ArgParser.setParamValue]
  induction p.params with
  | nil => rfl
  | cons a t ih =>
    simp only [List.map_cons, lookupParam]
    by_cases hak : a.1 = k
    · have hkk' : k ≠ k' := fun hh => h hh.symm
      have hak' : a.1 ≠ k' := fun hh => h (hh.symm.trans hak)
      rw [if_pos hak, if_neg (show ¬((k, v).1 = k') from hkk'),
        if_neg hak', ih]
    · rw [if_neg hak]
      by_cases hk' : a.1 = k'
      · rw [if_pos hk', if_pos hk']
      · rw [if_neg hk', if_neg hk', ih]

theorem startsWith1Dash_of_2Dash (s : String)
    (h : startsWith2Dash s = true) : startsWith1Dash s = true := by
  simp only [startsWith2Dash, startsWith1Dash] at *
  rcases hl : s.toList with _ | ⟨a, _ | ⟨b, t⟩⟩ <;> rw [hl] at h <;> simp at h ⊢
  exact h.1

theorem findEqAux_of_not_mem (l : List Char) (h : '=' ∉ l) :
    findEqAux l = none := by
  induction l with
  | nil => rfl
  | cons a t ih =>
    simp only [List.mem_cons, not_or] at h
    have ha : (a = '=') = False := by
      simp only [eq_iff_iff, iff_false]
      exact fun hh => h.1 hh.symm
    simp [findEqAux, ha, ih h.2]

theorem findEqAux_append (l1 l2 : List Char) (h : '=' ∉ l1) :
    findEqAux (l1 ++ '=' :: l2) = some l1.length := by
  induction l1 with
  | nil => simp [findEqAux]
  | cons a t ih =>
    simp only [List.mem_cons, not_or] at h
    have ha : (a = '=') = False := by
      simp only [eq_iff_iff, iff_false]
      exact fun hh => h.1 hh.symm
    simp [findEqAux, ha, ih h.2]

/-! ### Step lemmas for the main loop -/

theorem parseLoop_nil (p : ArgParser) : parseLoop p [] = p := rfl

theorem parseLoop_keep (p p' : ArgParser) (arg : String) (rest : List String)
    (h : parseStep p arg rest = (p', StepRes.keep)) :
    parseLoop p (arg :: rest) = parseLoop p' rest := by
  simp only [parseLoop, h]

theorem parseLoop_stop (p p' : ArgParser) (arg : String) (rest : List String)
    (h : parseStep p arg rest = (p', StepRes.stop)) :
    parseLoop p (arg :: rest) = p' := by
  simp only [parseLoop, h]

theorem parseLoop_dropOne (p p' : ArgParser) (arg a : String)
    (rest' : List String)
    (h : parseStep p arg (a :: rest') = (p', StepRes.dropOne)) :
    parseLoop p (arg :: a :: rest') = parseLoop p' rest' := by
  simp only [parseLoop, h]

/-! ### Further registry and cell lemmas -/

theorem lookupParam_map_overwrite (ps : List (Param × Value)) (k : Param)
    (v w : Value) :
    lookupParam ps k = some w →
      lookupParam (ps.map (fun kv => if kv.1 = k then (k, v) else kv)) k
        = some v := by
  induction ps with
  | nil => intro h; simp [lookupParam] at h
  | cons a t ih =>
    intro h
    simp only [lookupParam, List.map_cons] at h ⊢
    by_cases hak : a.1 = k
    · simp [hak]
    · simp only [hak, if_false] at h ⊢
      exact ih h

theorem lookupParam_setParamValue_self (p : ArgParser) (k : Param) (v w : Value)
    (h : lookupParam p.params k = some w) :
    lookupParam (p.setParamValue k v).params k = some v :=
  lookupParam_map_overwrite p.params k v w h

theorem getBoolCell_setBoolCell_self (p : ArgParser) (i : Nat) (b : Bool)
    (h : i < p.boolCells.length) :
    (p.setBoolCell i b).getBoolCell i = b := by
  simp [ArgParser.getBoolCell, ArgParser.setBoolCell,
    List.getD_eq_getElem?_getD, List.getElem?_set_self h]

theorem getStrCell_setStrCell_self (p : ArgParser) (i : Nat) (s : String)
    (h : i < p.strCells.length) :
    (p.setStrCell i s).getStrCell i = s := by
  simp [ArgParser.getStrCell, ArgParser.setStrCell,
    List.getD_eq_getElem?_getD, List.getElem?_set_self h]

theorem strTake_append (l1 l2 : List Char) :
    strTake (String.mk (l1 ++ '=' :: l2)) l1.length = String.mk l1 := by
  simp [strTake, List.take_left]

theorem strDrop_append (l1 l2 : List Char) :
    strDrop (String.mk (l1 ++ '=' :: l2)) (l1.length + 1) = String.mk l2 := by
  simp only [strDrop, String.toList, data_mk]
  rw [show l1 ++ '=' :: l2 = (l1 ++ ['=']) ++ l2 by simp]
  rw [List.drop_left' (by simp)]

theorem startsWith2Dash_eq_false (s : String)
    (h : startsWith1Dash s = false) : startsWith2Dash s = false := by
  cases hs : startsWith2Dash s
  · rfl
  · rw [startsWith1Dash_of_2Dash s hs] at h
    exact absurd h (by simp)

/-! ### Characterization of `parseStep` on each token shape -/

theorem parseStep_longEq (p : ArgParser) (name val : String)
    (rest : List String) (hmem : '=' ∉ name.data) :
    parseStep p ("--" ++ name ++ "=" ++ val) rest =
      (p.longEqStep name val, StepRes.keep) := by
  have hdata : ("--" ++ name ++ "=" ++ val).data
      = '-' :: '-' :: (name.data ++ '=' :: val.data) := by
    have h1 : ("--" : String).data = ['-', '-'] := rfl
    have h2 : ("=" : String).data = ['='] := rfl
    simp [h1, h2]
  have h2 : startsWith2Dash ("--" ++ name ++ "=" ++ val) = true := by
    simp [startsWith2Dash, hdata]
  have harg2 : strDrop ("--" ++ name ++ "=" ++ val) 2
      = String.mk (name.data ++ '=' :: val.data) := by
    simp [strDrop, hdata]
  have hne : String.mk (name.data ++ '=' :: val.data) ≠ "" := by
    intro hh
    have := congrArg String.data hh
    simp at this
  have hfind : findEq (String.mk (name.data ++ '=' :: val.data))
      = some name.data.length := findEqAux_append name.data val.data hmem
  have htake : strTake (String.mk (name.data ++ '=' :: val.data))
      name.data.length = name := by
    rw [strTake_append, mk_data]
  have hdrop : strDrop (String.mk (name.data ++ '=' :: val.data))
      (name.data.length + 1) = val := by
    rw [strDrop_append, mk_data]
  simp only [parseStep, h2, if_true, harg2, hne, if_false, hfind, htake,
    hdrop]

theorem parseStep_longBare (p : ArgParser) (name : String)
    (rest : List String) (hmem : '=' ∉ name.data) (hne : name ≠ "") :
    parseStep p ("--" ++ name) rest = (p.longBareStep name, StepRes.keep) := by
  have hdata : ("--" ++ name).data = '-' :: '-' :: name.data := by
    have h1 : ("--" : String).data = ['-', '-'] := rfl
    simp [h1]
  have h2 : startsWith2Dash ("--" ++ name) = true := by
    simp [startsWith2Dash, hdata]
  have harg2 : strDrop ("--" ++ name) 2 = name := by
    simp only [strDrop, String.toList, hdata, List.drop_succ_cons,
      List.drop_zero]
  have hfind : findEq name = none := findEqAux_of_not_mem name.data hmem
  simp only [parseStep, h2, if_true, harg2, hne, if_false, hfind]

theorem parseStep_settingEq (p : ArgParser) (name val : String)
    (rest : List String) (hmem : '=' ∉ name.data)
    (hd : startsWith1Dash name = false) :
    parseStep p (name ++ "=" ++ val) rest =
      (p.settingEqStep name val, StepRes.keep) := by
  have hdata : (name ++ "=" ++ val).data = name.data ++ '=' :: val.data := by
    have h2 : ("=" : String).data = ['='] := rfl
    simp [h2]
  have h1 : startsWith1Dash (name ++ "=" ++ val) = false := by
    simp only [startsWith1Dash, String.toList] at hd ⊢
    rw [hdata]
    rcases hnd : name.data with _ | ⟨a, t⟩
    · simp
    · rw [hnd] at hd
      simpa using hd
  have h2 : startsWith2Dash (name ++ "=" ++ val) = false :=
    startsWith2Dash_eq_false _ h1
  have hce : containsEq (name ++ "=" ++ val) = true := by
    simp [containsEq, String.toList, hdata]
  have hne : (name ++ "=" ++ val) ≠ "" := by
    intro hh
    have := congrArg String.data hh
    rw [hdata] at this
    simp at this
  have hfind : findEq (name ++ "=" ++ val) = some name.data.length := by
    show findEqAux (name ++ "=" ++ val).toList = _
    simp only [String.toList]
    rw [hdata]
    exact findEqAux_append name.data val.data hmem
  have htake : strTake (name ++ "=" ++ val) name.data.length = name := by
    simp only [strTake, String.toList]
    rw [hdata]
    have := strTake_append name.data val.data
    simp only [strTake, String.toList, data_mk] at this
    rw [this, mk_data]
  have hdrop : strDrop (name ++ "=" ++ val) (name.data.length + 1) = val := by
    simp only [strDrop, String.toList]
    rw [hdata]
    have := strDrop_append name.data val.data
    simp only [strDrop, String.toList, data_mk] at this
    rw [this, mk_data]
  simp only [parseStep, h2, h1, Bool.false_eq_true, if_false, false_and,
    hce, if_true, hne, hfind, htake, hdrop]

theorem parseStep_push (p : ArgParser) (arg : String) (rest : List String)
    (h1 : startsWith1Dash arg = false ∨ arg = "-")
    (hce : containsEq arg = false) :
    parseStep p arg rest = ({ p with args := p.args ++ [arg] },
      StepRes.keep) := by
  rcases h1 with h1 | h1
  · have h2 := startsWith2Dash_eq_false arg h1
    simp [parseStep, h2, h1, hce]
  · subst h1
    have h2 : startsWith2Dash "-" = false := rfl
    simp [parseStep, h2, hce]

theorem longEqStep_opt (p : ArgParser) (name val : String) (r : Rhs)
    (fid : Nat)
    (h : lookupParam p.params (Param.Long name) = some (Value.Opt r fid)) :
    p.longEqStep name val =
      ((p.setParamValue (Param.Long name)
          (Value.Opt ⟨r.value,
            if p.getStrCell r.value = "" then 1 else r.occurrences + 1⟩ fid)
        ).setStrCell r.value val).setBoolCell fid true := by
  simp only [ArgParser.longEqStep, h]

theorem settingEqStep_setting (p : ArgParser) (name val : String) (r : Rhs)
    (fid : Nat)
    (h : lookupParam p.params (Param.Long name) =
      some (Value.Setting r fid)) :
    p.settingEqStep name val =
      ((p.setParamValue (Param.Long name)
          (Value.Setting ⟨r.value,
            if p.getStrCell r.value = "" then 1 else r.occurrences + 1⟩ fid)
        ).setStrCell r.value val).setBoolCell fid true := by
  simp only [ArgParser.settingEqStep, h]

/-! ### Claim theorems -/

/-- C1: the claim (and the repository's own `settings` test) requires a
registered default to be retrievable through the read accessor, but
`add_opt_default` / `add_setting_default` initialize the shared `found`
indicator to `false` and nothing else ever sets it for an unreferenced
parameter, so `get_opt` / `get_setting` return `none` instead of
`some default`.  Evaluated at the input of the repository's `settings`
test, `get_setting "of"` is `none` although the test asserts
`Some("foo")`. -/
theorem C1_default_found_code_bug :
    ((((ArgParser.new.add_flag ["h"]).add_setting "if").add_setting_default
        "of" "foo").parse ["binname", "-h", "if=bar"]).get_setting
      (Param.Long "of") = none ∧
    ((ArgParser.new.add_opt_default "s" "size" "42").parse
      ["prog"]).get_opt (Param.Long "size") = none :=
  ⟨rfl, rfl⟩

/-- C2 counterexample: registering option `s` and parsing `[prog, -s]`
(the option is the last character of its cluster and no further token
exists) leaves the found indicator `false`, refuting the claim that this
situation sets it to `true`. -/
theorem C2_counterexample :
    ((ArgParser.new.add_opt "s" "").parse ["prog", "-s"]).found
      (Param.Short 's') = false := rfl

/-- C2 (amended): when a short-cluster character resolves to an Option,
is the last character of its cluster, and no further token exists, the
option's value cell is overwritten with the empty string, the situation
is not recorded as an error, and every other component of the state —
including the found indicator — is left unchanged (found is NOT set to
true). -/
theorem C2_short_opt_no_token (p : ArgParser) (c : Char) (r : Rhs) (fid : Nat)
    (hc : c ≠ '-')
    (h : lookupParam p.params (Param.Short c) = some (Value.Opt r fid)) :
    parseLoop p [String.mk ['-', c]] = p.setStrCell r.value "" := by
  have h2 : startsWith2Dash (String.mk ['-', c]) = false := by
    simp [startsWith2Dash, hc]
  have h1 : startsWith1Dash (String.mk ['-', c]) = true := by
    simp [startsWith1Dash]
  have hne : String.mk ['-', c] ≠ "-" := by
    intro hh
    have := congrArg String.data hh
    simp at this
  have hcl : p.parseCluster [c] [] = (p.setStrCell r.value "", false) := by
    rw [ArgParser.parseCluster.eq_def]
    simp [h]
  have hstep : parseStep p (String.mk ['-', c]) [] =
      (p.setStrCell r.value "", StepRes.keep) := by
    have hdrop : (String.mk ['-', c]).toList.drop 1 = [c] := rfl
    simp only [parseStep, h2, h1, hne, Bool.false_eq_true, if_false, ne_eq,
      not_false_iff, and_true, if_true, hdrop, hcl]
  rw [parseLoop_keep _ _ _ _ hstep, parseLoop_nil]

/-- C2 witness. -/
theorem C2_short_opt_no_token_witness :
    parseLoop (ArgParser.new.add_opt "s" "") [String.mk ['-', 's']] =
      (ArgParser.new.add_opt "s" "").setStrCell 0 "" :=
  C2_short_opt_no_token (ArgParser.new.add_opt "s" "") 's' ⟨0, 0⟩ 0
    (by decide) rfl

/-- C6: a token that is exactly `--` stops option processing: every
remaining token is appended unparsed to the positional list in original
order, nothing else in the state changes, and the pass terminates; at the
spec's example, flag `a` is found, flag `v` is not, and the positional
list is `["-v"]`. -/
theorem C6_stop_marker :
    (∀ (p : ArgParser) (rest : List String),
       parseLoop p ("--" :: rest) = { p with args := p.args ++ rest }) ∧
    ((((ArgParser.new.add_flag ["a"]).add_flag ["v"]).parse
        ["prog", "-a", "--", "-v"]).found (Param.Short 'a') = true ∧
     (((ArgParser.new.add_flag ["a"]).add_flag ["v"]).parse
        ["prog", "-a", "--", "-v"]).found (Param.Short 'v') = false ∧
     (((ArgParser.new.add_flag ["a"]).add_flag ["v"]).parse
        ["prog", "-a", "--", "-v"]).args = ["-v"]) := by
  refine ⟨fun p rest => ?_, rfl, rfl, rfl⟩
  exact parseLoop_stop p _ "--" rest rfl

/-- C3: for a `--name=value` token resolving to an Option and a dashless
`name=value` token resolving to a Setting, the shared value cell is
overwritten with `value` (`setStrCell`), the found indicator is set to
true (`setBoolCell`), and the occurrence counter becomes exactly 1 when
the value cell was empty immediately before the assignment and is
incremented by 1 otherwise; consequently `--tag=x --tag=y` after an empty
default yields count 2 and value `"y"`. -/
theorem C3_eq_value_assignment :
    (∀ (p : ArgParser) (name val : String) (rest : List String) (r : Rhs)
       (fid : Nat), '=' ∉ name.data →
       lookupParam p.params (Param.Long name) = some (Value.Opt r fid) →
       parseLoop p (("--" ++ name ++ "=" ++ val) :: rest) =
         parseLoop (((p.setParamValue (Param.Long name)
             (Value.Opt ⟨r.value,
               if p.getStrCell r.value = "" then 1 else r.occurrences + 1⟩
               fid)).setStrCell r.value val).setBoolCell fid true) rest) ∧
    (∀ (p : ArgParser) (name val : String) (rest : List String) (r : Rhs)
       (fid : Nat), '=' ∉ name.data → startsWith1Dash name = false →
       lookupParam p.params (Param.Long name) = some (Value.Setting r fid) →
       parseLoop p ((name ++ "=" ++ val) :: rest) =
         parseLoop (((p.setParamValue (Param.Long name)
             (Value.Setting ⟨r.value,
               if p.getStrCell r.value = "" then 1 else r.occurrences + 1⟩
               fid)).setStrCell r.value val).setBoolCell fid true) rest) ∧
    (((ArgParser.new.add_opt_default "" "tag" "").parse
        ["prog", "--tag=x", "--tag=y"]).count (Param.Long "tag") = 2 ∧
     ((ArgParser.new.add_opt_default "" "tag" "").parse
        ["prog", "--tag=x", "--tag=y"]).get_opt (Param.Long "tag")
       = some "y") := by
  refine ⟨?_, ?_, rfl, rfl⟩
  · intro p name val rest r fid hmem h
    rw [parseLoop_keep _ _ _ _ (parseStep_longEq p name val rest hmem),
      longEqStep_opt p name val r fid h]
  · intro p name val rest r fid hmem hd h
    rw [parseLoop_keep _ _ _ _ (parseStep_settingEq p name val rest hmem hd),
      settingEqStep_setting p name val r fid h]

/-- C3 witness. -/
theorem C3_eq_value_assignment_witness :
    ('=' ∉ ("tag" : String).data ∧
     lookupParam (ArgParser.new.add_opt_default "" "tag" "").params
       (Param.Long "tag") = some (Value.Opt ⟨0, 0⟩ 0)) ∧
    parseLoop (ArgParser.new.add_opt_default "" "tag" "")
        [("--" ++ "tag" ++ "=" ++ "x")] =
      parseLoop ((((ArgParser.new.add_opt_default "" "tag" "").setParamValue
          (Param.Long "tag") (Value.Opt ⟨0, 1⟩ 0)).setStrCell 0
            "x").setBoolCell 0 true) [] :=
  ⟨⟨by decide, rfl⟩,
   C3_eq_value_assignment.1 (ArgParser.new.add_opt_default "" "tag" "")
     "tag" "x" [] ⟨0, 0⟩ 0 (by decide) rfl⟩

/-- C8: for a bare `--name` token resolving to a registered Option, the
parser increments that key's occurrence counter and sets the found
indicator to true while leaving every string value cell unchanged. -/
theorem C8_bare_long_opt_marks_use (p : ArgParser) (name : String) (r : Rhs)
    (fid : Nat) (rest : List String) (hmem : '=' ∉ name.data)
    (hne : name ≠ "") (hfid : fid < p.boolCells.length)
    (h : lookupParam p.params (Param.Long name) = some (Value.Opt r fid)) :
    parseLoop p (("--" ++ name) :: rest)
      = parseLoop (p.longBareStep name) rest ∧
    (p.longBareStep name).strCells = p.strCells ∧
    (p.longBareStep name).count (Param.Long name) = r.occurrences + 1 ∧
    (p.longBareStep name).found (Param.Long name) = true := by
  have hbare : p.longBareStep name = (p.setParamValue (Param.Long name)
      (Value.Opt ⟨r.value, r.occurrences + 1⟩ fid)).setBoolCell fid true := by
    simp only [ArgParser.longBareStep, h]
  have hlook : lookupParam ((p.setParamValue (Param.Long name)
      (Value.Opt ⟨r.value, r.occurrences + 1⟩ fid)).setBoolCell fid
        true).params (Param.Long name)
      = some (Value.Opt ⟨r.value, r.occurrences + 1⟩ fid) :=
    lookupParam_setParamValue_self p (Param.Long name) _ _ h
  refine ⟨parseLoop_keep _ _ _ _ (parseStep_longBare p name rest hmem hne),
    ?_, ?_, ?_⟩
  · rw [hbare]
    rfl
  · rw [hbare]
    simp only [ArgParser.count, hlook]
  · rw [hbare]
    simp only [ArgParser.found, hlook]
    exact getBoolCell_setBoolCell_self
      (p.setParamValue (Param.Long name)
        (Value.Opt ⟨r.value, r.occurrences + 1⟩ fid)) fid true hfid

/-- C8 witness. -/
theorem C8_bare_long_opt_marks_use_witness :
    ('=' ∉ ("verbose" : String).data ∧ ("verbose" : String) ≠ "" ∧
     0 < (ArgParser.new.add_opt "" "verbose").boolCells.length ∧
     lookupParam (ArgParser.new.add_opt "" "verbose").params
       (Param.Long "verbose") = some (Value.Opt ⟨0, 0⟩ 0)) ∧
    (parseLoop (ArgParser.new.add_opt "" "verbose") ["--" ++ "verbose"]
       = parseLoop ((ArgParser.new.add_opt "" "verbose").longBareStep
           "verbose") [] ∧
     ((ArgParser.new.add_opt "" "verbose").longBareStep "verbose").strCells
       = (ArgParser.new.add_opt "" "verbose").strCells ∧
     ((ArgParser.new.add_opt "" "verbose").longBareStep "verbose").count
       (Param.Long "verbose") = 0 + 1 ∧
     ((ArgParser.new.add_opt "" "verbose").longBareStep "verbose").found
       (Param.Long "verbose") = true) :=
  ⟨⟨by decide, by decide, by decide, rfl⟩,
   C8_bare_long_opt_marks_use (ArgParser.new.add_opt "" "verbose") "verbose"
     ⟨0, 0⟩ 0 [] (by decide) (by decide) (by decide) rfl⟩

/-- C4: in a short cluster, a character resolving to an Option with a
non-empty rest takes the rest of the cluster as its value and sets found
(first conjunct, the returned pair shows the cluster scan stops there and
consumes no extra token); with an empty rest it takes the next whole
token from the shared cursor as its value (second conjunct); and at the
loop level that consumed token is not reprocessed: the main loop resumes
after it (third conjunct). -/
theorem C4_cluster_option (p : ArgParser) (c : Char) (r : Rhs) (fid : Nat)
    (h : lookupParam p.params (Param.Short c) = some (Value.Opt r fid)) :
    (∀ (cl : List Char) (rest : List String), cl ≠ [] →
       p.parseCluster (c :: cl) rest =
         ((p.setStrCell r.value (String.mk cl)).setBoolCell fid true,
          false)) ∧
    (∀ (a : String) (rest' : List String),
       p.parseCluster [c] (a :: rest') =
         ((p.setBoolCell fid true).setStrCell r.value a, true)) ∧
    (∀ (a : String) (rest' : List String), c ≠ '-' →
       parseLoop p (String.mk ['-', c] :: a :: rest') =
         parseLoop ((p.setBoolCell fid true).setStrCell r.value a) rest') := by
  refine ⟨?_, ?_, ?_⟩
  · intro cl rest hcl
    rw [ArgParser.parseCluster.eq_def]
    simp [h, hcl]
  · intro a rest'
    rw [ArgParser.parseCluster.eq_def]
    simp [h]
  · intro a rest' hc
    have h2 : startsWith2Dash (String.mk ['-', c]) = false := by
      simp [startsWith2Dash, hc]
    have h1 : startsWith1Dash (String.mk ['-', c]) = true := by
      simp [startsWith1Dash]
    have hne : String.mk ['-', c] ≠ "-" := by
      intro hh
      have := congrArg String.data hh
      simp at this
    have hcl2 : p.parseCluster [c] (a :: rest') =
        ((p.setBoolCell fid true).setStrCell r.value a, true) := by
      rw [ArgParser.parseCluster.eq_def]
      simp [h]
    have hstep : parseStep p (String.mk ['-', c]) (a :: rest') =
        ((p.setBoolCell fid true).setStrCell r.value a, StepRes.dropOne) := by
      have hdrop1 : (String.mk ['-', c]).toList.drop 1 = [c] := rfl
      simp only [parseStep, h2, h1, hne, hdrop1, hcl2, Bool.false_eq_true,
        if_false, ne_eq, not_false_iff, and_true, if_true]
    exact parseLoop_dropOne _ _ _ _ _ hstep

/-- C4 witness. -/
theorem C4_cluster_option_witness :
    lookupParam (ArgParser.new.add_opt "s" "").params (Param.Short 's') =
        some (Value.Opt ⟨0, 0⟩ 0) ∧
    (ArgParser.new.add_opt "s" "").parseCluster ['s', '4'] [] =
      (((ArgParser.new.add_opt "s" "").setStrCell 0
          (String.mk ['4'])).setBoolCell 0 true, false) ∧
    parseLoop (ArgParser.new.add_opt "s" "") [String.mk ['-', 's'], "foo"] =
      parseLoop (((ArgParser.new.add_opt "s" "").setBoolCell 0
        true).setStrCell 0 "foo") [] :=
  ⟨rfl,
   (C4_cluster_option (ArgParser.new.add_opt "s" "") 's' ⟨0, 0⟩ 0 rfl).1
     ['4'] [] (by decide),
   (C4_cluster_option (ArgParser.new.add_opt "s" "") 's' ⟨0, 0⟩ 0 rfl).2.2
     "foo" [] (by decide)⟩

/-- C9: a token sequence containing no recognized parameter syntax (every
token either does not start with `-` or is the lone `-`, and contains no
`=`) is appended verbatim, in order, to the positional list, and nothing
else in the parser state changes: the positional list after `parse`
equals the previous list extended by the input minus the program name. -/
theorem C9_positional_roundtrip (p : ArgParser) (prog : String)
    (toks : List String)
    (h : ∀ t ∈ toks, (startsWith1Dash t = false ∨ t = "-") ∧
      containsEq t = false) :
    p.parse (prog :: toks) = { p with args := p.args ++ toks } := by
  show parseLoop p toks = _
  induction toks generalizing p with
  | nil =>
    show p = { p with args := p.args ++ [] }
    simp
  | cons t ts ih =>
    have ht := h t (List.mem_cons_self t ts)
    rw [parseLoop_keep _ _ _ _ (parseStep_push p t ts ht.1 ht.2),
      ih _ (fun x hx => h x (List.mem_cons_of_mem t hx))]
    simp

/-- C9 witness. -/
theorem C9_positional_roundtrip_witness :
    (∀ t ∈ ["alpha", "-", "beta"],
      (startsWith1Dash t = false ∨ t = "-") ∧ containsEq t = false) ∧
    (ArgParser.new.add_flag ["a"]).parse ["prog", "alpha", "-", "beta"] =
      { ArgParser.new.add_flag ["a"] with
        args := (ArgParser.new.add_flag ["a"]).args ++
          ["alpha", "-", "beta"] } :=
  ⟨by decide,
   C9_positional_roundtrip (ArgParser.new.add_flag ["a"]) "prog"
     ["alpha", "-", "beta"] (by decide)⟩

theorem parseCluster_opt_binding (p : ArgParser) (chs : List Char)
    (rest : List String) (k : Param) (r : Rhs) (fid : Nat)
    (h : lookupParam p.params k = some (Value.Opt r fid)) :
    lookupParam ((p.parseCluster chs rest).1).params k =
      some (Value.Opt r fid) := by
  induction chs generalizing p with
  | nil => simpa [ArgParser.parseCluster] using h
  | cons ch chs' ih =>
    rw [ArgParser.parseCluster.eq_def]
    cases hl : lookupParam p.params (Param.Short ch) with
    | none =>
      simp only [hl]
      exact ih { p with invalid := p.invalid ++ [Param.Short ch] } h
    | some v =>
      cases v with
      | Flag rr =>
        simp only [hl]
        have hk : k ≠ Param.Short ch := by
          intro hh
          rw [hh, hl] at h
          simp at h
        apply ih
        exact (lookupParam_setParamValue_ne (p.setBoolCell rr.value true)
          (Param.Short ch) k _ hk).trans h
      | Opt rr ff =>
        simp only [hl]
        by_cases hch : chs' = []
        · subst hch
          cases rest with
          | nil => simpa using h
          | cons a rest' => simpa using h
        · simp only [hch, ne_eq, not_false_iff, if_true]
          exact h
      | Setting rr ff =>
        simp only [hl]
        exact ih { p with invalid := p.invalid ++ [Param.Short ch] } h

/-- C10: the short-cluster Option branch never touches any occurrence
counter: scanning any cluster leaves every key bound to an Option with
its binding — occurrence counter included — unchanged; hence for an
option supplied only via short syntax (glued and separate) the count
accessor for its short key still returns 0 after parsing. -/
theorem C10_short_opt_counter_untouched :
    (∀ (p : ArgParser) (chs : List Char) (rest : List String) (k : Param)
       (r : Rhs) (fid : Nat),
       lookupParam p.params k = some (Value.Opt r fid) →
       lookupParam ((p.parseCluster chs rest).1).params k =
         some (Value.Opt r fid)) ∧
    ((ArgParser.new.add_opt "s" "").parse
      ["prog", "-sfoo", "-s", "bar", "-s"]).count (Param.Short 's') = 0 :=
  ⟨fun p chs rest k r fid h =>
    parseCluster_opt_binding p chs rest k r fid h, rfl⟩

/-- C10 witness. -/
theorem C10_short_opt_counter_untouched_witness :
    lookupParam (ArgParser.new.add_opt "s" "").params (Param.Short 's') =
        some (Value.Opt ⟨0, 0⟩ 0) ∧
    lookupParam (((ArgParser.new.add_opt "s" "").parseCluster ['s']
        ["x"]).1).params (Param.Short 's') = some (Value.Opt ⟨0, 0⟩ 0) :=
  ⟨rfl, C10_short_opt_counter_untouched.1 (ArgParser.new.add_opt "s" "")
    ['s'] ["x"] (Param.Short 's') ⟨0, 0⟩ 0 rfl⟩

/-- C5: registering one option under a short and a long key makes both
registry entries reference the identical value cell and the identical
found cell (the same store indices), each with its own zero-initialized
occurrence counter; likewise for a flag registered under a short and a
long alias; behaviorally, a value assigned through the long alias is
readable through the short alias while the occurrence counters stay
per-key (long count 1, short count 0). -/
theorem C5_alias_shared_cell :
    (∀ (p : ArgParser) (s long : String) (c : Char) (cs : List Char),
       s.data = c :: cs → long ≠ "" →
       lookupParam (p.add_opt s long).params (Param.Short c) =
           some (Value.Opt ⟨p.strCells.length, 0⟩ p.boolCells.length) ∧
       lookupParam (p.add_opt s long).params (Param.Long long) =
           some (Value.Opt ⟨p.strCells.length, 0⟩ p.boolCells.length)) ∧
    (∀ (p : ArgParser) (c : Char) (long : String) (a b : Char)
       (t : List Char), long.data = a :: b :: t →
       lookupParam (p.add_flag [String.singleton c, long]).params
           (Param.Short c) = some (Value.Flag ⟨p.boolCells.length, 0⟩) ∧
       lookupParam (p.add_flag [String.singleton c, long]).params
           (Param.Long long) = some (Value.Flag ⟨p.boolCells.length, 0⟩)) ∧
    (((ArgParser.new.add_opt "v" "verbose").parse
        ["prog", "--verbose=x"]).get_opt (Param.Short 'v') = some "x" ∧
     ((ArgParser.new.add_opt "v" "verbose").parse
        ["prog", "--verbose=x"]).count (Param.Long "verbose") = 1 ∧
     ((ArgParser.new.add_opt "v" "verbose").parse
        ["prog", "--verbose=x"]).count (Param.Short 'v') = 0) := by
  refine ⟨?_, ?_, rfl, rfl, rfl⟩
  · intro p s long c cs hs hlong
    have hparams : (p.add_opt s long).params =
        mapInsert (mapInsert p.params (Param.Short c)
            (Value.Opt ⟨p.strCells.length, 0⟩ p.boolCells.length))
          (Param.Long long)
          (Value.Opt ⟨p.strCells.length, 0⟩ p.boolCells.length) := by
      simp only [ArgParser.add_opt, ArgParser.addOptWith, String.toList, hs,
        hlong, if_false]
    constructor
    · rw [hparams, lookupParam_mapInsert_ne _ _ _ _ (by simp),
        lookupParam_mapInsert_self]
    · rw [hparams, lookupParam_mapInsert_self]
  · intro p c long a b t hlong
    have hsc : (String.singleton c).toList = [c] := rfl
    have hlc : long.toList = a :: b :: t := hlong
    have hparams : (p.add_flag [String.singleton c, long]).params =
        mapInsert (mapInsert p.params (Param.Short c)
            (Value.Flag ⟨p.boolCells.length, 0⟩)) (Param.Long long)
          (Value.Flag ⟨p.boolCells.length, 0⟩) := by
      simp only [ArgParser.add_flag, List.foldl, hsc, hlc]
    constructor
    · rw [hparams, lookupParam_mapInsert_ne _ _ _ _ (by simp),
        lookupParam_mapInsert_self]
    · rw [hparams, lookupParam_mapInsert_self]

/-- C5 witness. -/
theorem C5_alias_shared_cell_witness :
    (("v" : String).data = 'v' :: [] ∧ ("verbose" : String) ≠ "" ∧
     ("foo" : String).data = 'f' :: 'o' :: ['o']) ∧
    lookupParam (ArgParser.new.add_opt "v" "verbose").params
        (Param.Short 'v') = some (Value.Opt ⟨0, 0⟩ 0) ∧
    lookupParam (ArgParser.new.add_opt "v" "verbose").params
        (Param.Long "verbose") = some (Value.Opt ⟨0, 0⟩ 0) ∧
    lookupParam (ArgParser.new.add_flag [String.singleton 'f',
        "foo"]).params (Param.Short 'f') = some (Value.Flag ⟨0, 0⟩) ∧
    lookupParam (ArgParser.new.add_flag [String.singleton 'f',
        "foo"]).params (Param.Long "foo") = some (Value.Flag ⟨0, 0⟩) := by
  have h1 := C5_alias_shared_cell.1 ArgParser.new "v" "verbose" 'v' []
    (by decide) (by decide)
  have h2 := C5_alias_shared_cell.2.1 ArgParser.new 'f' "foo" 'f' 'o' ['o']
    (by decide)
  exact ⟨⟨by decide, by decide, by decide⟩, h1.1, h1.2, h2.1, h2.2⟩

/-! ### Rendering lemmas for the diagnostic (C7) -/

theorem renderLoop_cons (useAnd : Bool) (q : Param) (l : List Param) :
    renderLoop useAnd (q :: l) =
      renderEntry q ++ (if useAnd ∧ l ≠ [] then " and" else "")
        ++ renderLoop useAnd l := rfl

theorem renderEntry_eq (q : Param) : renderEntry q = " " ++ claimQuoted q := by
  have hsp : (" " : String).data = [' '] := rfl
  have hq : ("'" : String).data = ['\''] := rfl
  have hd : ("-" : String).data = ['-'] := rfl
  have hdd : ("--" : String).data = ['-', '-'] := rfl
  have hsd : (" '-" : String).data = [' ', '\'', '-'] := rfl
  have hsdd : (" '--" : String).data = [' ', '\'', '-', '-'] := rfl
  cases q with
  | Short c =>
    have hc : (String.singleton c).data = [c] := rfl
    apply String.ext
    simp [renderEntry, claimQuoted, claimRender, hsp, hq, hd, hsd, hc]
  | Long s =>
    apply String.ext
    simp [renderEntry, claimQuoted, claimRender, hsp, hq, hdd, hsdd]

theorem renderLoop_true_eq (q : Param) (l : List Param) :
    renderLoop true (q :: l) =
      " " ++ claimJoinAnd ((q :: l).map claimQuoted) := by
  have ha : (" and" : String).data = [' ', 'a', 'n', 'd'] := rfl
  have hb : (" and " : String).data = [' ', 'a', 'n', 'd', ' '] := rfl
  induction l generalizing q with
  | nil =>
    rw [renderLoop_cons, renderEntry_eq]
    simp [renderLoop, claimJoinAnd]
  | cons x t ih =>
    rw [renderLoop_cons, renderEntry_eq, ih x]
    simp only [List.map_cons, claimJoinAnd]
    rw [if_pos (show True ∧ x :: t ≠ [] by simp)]
    apply String.ext
    simp [ha, hb]

/-- C7: `found_invalid` is Ok when the invalid list is empty; for exactly
one entry it is the exact string `Invalid parameter '<r>'\n`; for two or
more entries the exact string
`Invalid parameters '<r1>' and ... '<rN>'\n` with `" and "` between every
adjacent pair, a Short key rendered `-<char>` and a Long key `--<string>`,
the entries taken from the encounter-ordered list with no deduplication;
at the spec's example the message is exactly
`Invalid parameters '-z' and '--bogus'\n`. -/
theorem C7_diagnostic_rendering (p : ArgParser) :
    (p.invalid = [] → p.found_invalid = Except.ok ()) ∧
    (∀ x, p.invalid = [x] →
       p.found_invalid =
         Except.error ("Invalid parameter " ++ claimQuoted x ++ "\n")) ∧
    (∀ x y t, p.invalid = x :: y :: t →
       p.found_invalid =
         Except.error ("Invalid parameters "
           ++ claimJoinAnd ((x :: y :: t).map claimQuoted) ++ "\n")) ∧
    ({ ArgParser.new with
        invalid := [Param.Short 'z', Param.Long "bogus"] } :
      ArgParser).found_invalid =
      Except.error "Invalid parameters '-z' and '--bogus'\n" := by
  refine ⟨?_, ?_, ?_, rfl⟩
  · intro h
    simp [ArgParser.found_invalid, h]
  · intro x h
    have hm : ("Invalid parameter" : String) ++ " " = "Invalid parameter " :=
      rfl
    simp only [ArgParser.found_invalid, h]
    rw [if_neg (by simp)]
    rw [if_pos (show ([x] : List Param).length = 1 from rfl)]
    have hdec : (decide (([x] : List Param).length ≠ 1)) = false := rfl
    rw [hdec, renderLoop_cons, renderEntry_eq]
    rw [if_neg (by simp)]
    simp only [renderLoop, String.append_empty]
    rw [← String.append_assoc, hm]
  · intro x y t h
    have hm : ("Invalid parameters" : String) ++ " "
        = "Invalid parameters " := rfl
    simp only [ArgParser.found_invalid, h]
    rw [if_neg (by simp)]
    rw [if_neg (show ¬((x :: y :: t).length = 1) by
      simp [List.length_cons])]
    have hdec : (decide ((x :: y :: t).length ≠ 1)) = true := by
      simp [List.length_cons]
    rw [hdec, renderLoop_true_eq]
    rw [← String.append_assoc, hm]

/-- C7 witness. -/
theorem C7_diagnostic_rendering_witness :
    ({ ArgParser.new with invalid := [Param.Short 'z'] } :
        ArgParser).invalid = [Param.Short 'z'] ∧
    ({ ArgParser.new with invalid := [Param.Short 'z'] } :
        ArgParser).found_invalid =
      Except.error ("Invalid parameter " ++ claimQuoted (Param.Short 'z')
        ++ "\n") :=
  ⟨rfl, (C7_diagnostic_rendering
    { ArgParser.new with invalid := [Param.Short 'z'] }).2.1
    (Param.Short 'z') rfl⟩

end ArgCrate
